import Mathlib

/-!
Verification of the relevance-scoring / ranking / rendering core of
`econ_research_digest.py`.

Python strings are modelled as `List Char` (`PyStr`); Python `int` as `Int`;
Python's truthiness test on a string as emptiness; Python's `in` substring
test as contiguous-sublist search.  Stateful field updates (`paper.x = ...`)
become functional record updates.  Python's `sorted(..., key=k, reverse=True)`
is a stable sort; it is modelled by a stable insertion sort on the same key,
which produces the identical output list (stable sorts by a key are unique).
-/

namespace EconDigest

/-- Model of a Python `str`: a list of characters. -/
abbrev PyStr := List Char

/-- Model of Python `str.lower()` (the texts involved are ASCII, where
`Char.toLower` agrees with Python's per-character lowering). -/
def pyLower (s : PyStr) : PyStr := s.map Char.toLower

/-- Model of Python's `needle in hay` substring test: `needle` occurs as a
contiguous substring of `hay` (the empty string occurs in every string). -/
def pyIn (needle : PyStr) : PyStr → Bool
  | [] => needle.isEmpty
  | c :: t => needle.isPrefixOf (c :: t) || pyIn needle t

/-- Model of Python `sep.join(parts)`. -/
def pyJoin (sep : PyStr) (parts : List PyStr) : PyStr :=
  (parts.intersperse sep).flatten

/-- Rendering of a natural number, as Python's f-string interpolation does. -/
def natStr (n : Nat) : PyStr := (Nat.repr n).toList

/-- The `Paper` dataclass of the source.  `date` holds the already-rendered
`"%b %d"` form of the optional `datetime` (only `strftime` is ever applied to
it); the `__post_init__` replacement of `None` by `[]` for `matched_keywords`
is modelled by the field default. -/
structure Paper where
  title : PyStr
  authors : PyStr
  source : PyStr
  url : PyStr
  abstract : PyStr
  date : Option PyStr
  relevance_score : Int := 0
  matched_keywords : List PyStr := []
  key_finding : PyStr := []
deriving DecidableEq

/-- The `PRIORITY_KEYWORDS` configuration list, transcribed entry for entry
(note that `"antitrust"` appears twice, once in the corporate-power block and
once in the policy block, exactly as in the source). -/
def PRIORITY_KEYWORDS : List PyStr := [
  "price".toList, "pricing".toList, "markup".toList, "profit".toList,
  "corporate".toList, "concentration".toList,
  "monopoly".toList, "antitrust".toList, "market power".toList,
  "oligopoly".toList, "merger".toList,
  "gouging".toList, "inflation".toList,
  "housing".toList, "rent".toList, "mortgage".toList, "landlord".toList,
  "eviction".toList, "tenant".toList,
  "homeowner".toList, "affordability".toList, "real estate".toList,
  "financialization".toList,
  "wage".toList, "labor".toList, "worker".toList, "employment".toList,
  "unemployment".toList, "union".toList,
  "minimum wage".toList, "gig economy".toList, "collective bargaining".toList,
  "strike".toList,
  "inequality".toList, "wealth".toList, "income distribution".toList,
  "poverty".toList, "mobility".toList,
  "racial".toList, "gender gap".toList, "disparity".toList,
  "progressive".toList,
  "consumer".toList, "household".toList, "debt".toList, "credit".toList,
  "family".toList, "childcare".toList,
  "healthcare cost".toList, "food price".toList, "grocery".toList,
  "tax".toList, "fiscal".toList, "subsidy".toList, "regulation".toList,
  "enforcement".toList, "antitrust".toList,
  "competition policy".toList, "industrial policy".toList]

/-- One iteration of the keyword loop of `calculate_relevance`: the
accumulator carries the running `relevance_score` and the `matches` list. -/
def scoreStep (text titleLower : PyStr) (acc : Int × List PyStr)
    (keyword : PyStr) : Int × List PyStr :=
  if pyIn (pyLower keyword) text then
    (acc.1 + (if pyIn (pyLower keyword) titleLower then 3 else 1),
     acc.2 ++ [keyword])
  else acc

/-- The body of `calculate_relevance`, with the keyword list as an explicit
parameter.  `text` is `f"{paper.title} {paper.abstract}".lower()`; the loop
starts from the paper's existing `relevance_score` (the source uses `+=`);
`list(set(matches))` is modelled by `dedup` (Python's set iteration order is
unspecified; every claim about `matched_keywords` is a claim about the
underlying set). -/
def calculate_relevance_with (keywords : List PyStr) (paper : Paper) : Paper :=
  let text := pyLower (paper.title ++ [' '] ++ paper.abstract)
  let r := keywords.foldl (scoreStep text (pyLower paper.title))
    (paper.relevance_score, [])
  { paper with relevance_score := r.1, matched_keywords := r.2.dedup }

/-- The source's `calculate_relevance`, which reads the global
`PRIORITY_KEYWORDS`. -/
def calculate_relevance (paper : Paper) : Paper :=
  calculate_relevance_with PRIORITY_KEYWORDS paper

/-- Modelled from the spec: the per-keyword contribution of keyword `k` for a
document with the given title and abstract — 3 when `k` substring-matches the
lowercased title, 1 when it matches the lowercased title-space-abstract
concatenation but not the title, 0 otherwise. -/
def keywordContribution (title abstract : PyStr) (k : PyStr) : Int :=
  if pyIn (pyLower k) (pyLower (title ++ [' '] ++ abstract)) then
    (if pyIn (pyLower k) (pyLower title) then 3 else 1)
  else 0

/-- Closed form of the keyword fold: it adds every matching keyword's weight
to the incoming score and appends the matching keywords in order. -/
theorem foldl_scoreStep (text tl : PyStr) (ks : List PyStr) (s : Int)
    (ms : List PyStr) :
    ks.foldl (scoreStep text tl) (s, ms)
      = (s + (ks.map (fun k =>
            if pyIn (pyLower k) text then
              (if pyIn (pyLower k) tl then 3 else 1)
            else 0)).sum,
         ms ++ ks.filter (fun k => pyIn (pyLower k) text)) := by
  induction ks generalizing s ms with
  | nil => simp
  | cons k ks ih =>
    by_cases hk : pyIn (pyLower k) text = true
    · simp only [List.foldl_cons, scoreStep, hk, if_true, ih, List.map_cons,
        List.sum_cons, List.filter_cons, List.append_assoc,
        List.singleton_append]
      rw [add_assoc]
    · simp only [List.foldl_cons, scoreStep, hk, if_false, ih, List.map_cons,
        List.sum_cons, List.filter_cons, Bool.not_eq_true] at *
      simp [hk, ih]

/-- Helper: the score produced by `calculate_relevance_with` is the incoming
score plus the sum of the per-keyword contributions. -/
theorem calc_with_score (ks : List PyStr) (p : Paper) :
    (calculate_relevance_with ks p).relevance_score
      = p.relevance_score
        + (ks.map (keywordContribution p.title p.abstract)).sum := by
  simp only [calculate_relevance_with, foldl_scoreStep]
  congr 2

/-- Helper: the matched-keywords list produced by `calculate_relevance_with`
is the dedup of the keywords whose lowercase form occurs in the search text. -/
theorem calc_with_matched (ks : List PyStr) (p : Paper) :
    (calculate_relevance_with ks p).matched_keywords
      = (ks.filter (fun k =>
          pyIn (pyLower k) (pyLower (p.title ++ [' '] ++ p.abstract)))).dedup := by
  simp [calculate_relevance_with, foldl_scoreStep]

/-- Helper: `calculate_relevance_with` only updates `relevance_score` and
`matched_keywords`; every other field is returned unchanged. -/
theorem calc_with_frame (ks : List PyStr) (p : Paper) :
    (calculate_relevance_with ks p).title = p.title
  ∧ (calculate_relevance_with ks p).authors = p.authors
  ∧ (calculate_relevance_with ks p).source = p.source
  ∧ (calculate_relevance_with ks p).url = p.url
  ∧ (calculate_relevance_with ks p).abstract = p.abstract
  ∧ (calculate_relevance_with ks p).date = p.date
  ∧ (calculate_relevance_with ks p).key_finding = p.key_finding :=
  ⟨rfl, rfl, rfl, rfl, rfl, rfl, rfl⟩

/-- Example paper of the spec's end-to-end scoring example: title
`"Rent Control and Housing Markets"`, empty abstract. -/
def rentPaper : Paper :=
  { title := "Rent Control and Housing Markets".toList, authors := [],
    source := [], url := [], abstract := [], date := none }

/-- C1: for every Paper whose relevance_score is initially 0 and every
keyword list, `calculate_relevance` sets `relevance_score` to the sum of the
per-keyword contributions (3 for a title match, 1 for a text-only match, 0
otherwise) and sets `matched_keywords` to the deduplicated set of keywords
that matched anywhere in the search text. -/
theorem calculate_relevance_score_sum (ks : List PyStr) (paper : Paper)
    (h : paper.relevance_score = 0) :
    (calculate_relevance_with ks paper).relevance_score
      = (ks.map (keywordContribution paper.title paper.abstract)).sum
  ∧ (calculate_relevance_with ks paper).matched_keywords.Nodup
  ∧ ∀ k, (k ∈ (calculate_relevance_with ks paper).matched_keywords ↔
      (k ∈ ks ∧ pyIn (pyLower k)
        (pyLower (paper.title ++ [' '] ++ paper.abstract)) = true)) := by
  refine ⟨?_, ?_, fun k => ?_⟩
  · rw [calc_with_score, h, zero_add]
  · rw [calc_with_matched]; exact List.nodup_dedup _
  · rw [calc_with_matched]
    simp [List.mem_dedup, List.mem_filter]

/-- Witness for C1, instantiating the spec's end-to-end example: keyword list
`["rent", "housing"]`, title `"Rent Control and Housing Markets"`, empty
abstract — both keywords match in the title, the score is 3 + 3 = 6 and the
matched set is exactly \x7b"rent", "housing"\x7d. -/
theorem calculate_relevance_score_sum_witness :
    rentPaper.relevance_score = 0
  ∧ ((calculate_relevance_with ["rent".toList, "housing".toList]
        rentPaper).relevance_score
      = (["rent".toList, "housing".toList].map
          (keywordContribution rentPaper.title rentPaper.abstract)).sum
    ∧ (calculate_relevance_with ["rent".toList, "housing".toList]
        rentPaper).matched_keywords.Nodup
    ∧ ∀ k, (k ∈ (calculate_relevance_with ["rent".toList, "housing".toList]
        rentPaper).matched_keywords ↔
      (k ∈ ["rent".toList, "housing".toList] ∧ pyIn (pyLower k)
        (pyLower (rentPaper.title ++ [' '] ++ rentPaper.abstract)) = true)))
  ∧ (calculate_relevance_with ["rent".toList, "housing".toList]
      rentPaper).relevance_score = 6
  ∧ (calculate_relevance_with ["rent".toList, "housing".toList]
      rentPaper).matched_keywords = ["rent".toList, "housing".toList] :=
  ⟨rfl, calculate_relevance_score_sum _ _ rfl, by decide, by decide⟩

/-- C3 counterexample: scoring the same unmodified paper twice doubles the
score (6 instead of 3 for a title containing one keyword occurrence), because
`calculate_relevance` accumulates onto the existing `relevance_score` with
`+=` instead of recomputing from scratch. -/
theorem calculate_relevance_not_idempotent :
    (calculate_relevance (calculate_relevance rentPaper)).relevance_score
      ≠ (calculate_relevance rentPaper).relevance_score := by decide

/-- C3 amended: `calculate_relevance` adds the keyword total to the existing
score rather than recomputing it, so a second application on a paper that
started at score 0 yields exactly twice the single-application score;
`matched_keywords` is recomputed from scratch and is unchanged by the second
application. -/
theorem calculate_relevance_accumulates (paper : Paper)
    (h : paper.relevance_score = 0) :
    (calculate_relevance (calculate_relevance paper)).relevance_score
      = 2 * (calculate_relevance paper).relevance_score
  ∧ (calculate_relevance (calculate_relevance paper)).matched_keywords
      = (calculate_relevance paper).matched_keywords := by
  constructor
  · rw [calculate_relevance, calculate_relevance, calc_with_score,
      calc_with_score, (calc_with_frame PRIORITY_KEYWORDS paper).1,
      (calc_with_frame PRIORITY_KEYWORDS paper).2.2.2.2.1, h]
    ring
  · rw [calculate_relevance, calculate_relevance, calc_with_matched,
      calc_with_matched, (calc_with_frame PRIORITY_KEYWORDS paper).1,
      (calc_with_frame PRIORITY_KEYWORDS paper).2.2.2.2.1]

/-- Witness for C3's amended theorem at the concrete example paper: one
application scores 6 (two title keywords), a second application yields 12. -/
theorem calculate_relevance_accumulates_witness :
    rentPaper.relevance_score = 0
  ∧ ((calculate_relevance (calculate_relevance rentPaper)).relevance_score
      = 2 * (calculate_relevance rentPaper).relevance_score
    ∧ (calculate_relevance (calculate_relevance rentPaper)).matched_keywords
      = (calculate_relevance rentPaper).matched_keywords)
  ∧ (calculate_relevance rentPaper).relevance_score = 6
  ∧ (calculate_relevance (calculate_relevance rentPaper)).relevance_score
      = 12 :=
  ⟨rfl, calculate_relevance_accumulates _ rfl, by decide, by decide⟩

/-- Example paper exhibiting the duplicated `"antitrust"` keyword: the title
is the single word `"Antitrust"`, the abstract is empty. -/
def antitrustPaper : Paper :=
  { title := "Antitrust".toList, authors := [], source := [], url := [],
    abstract := [], date := none }

/-- C4: `"antitrust"` appears twice in `PRIORITY_KEYWORDS`, and
`calculate_relevance` iterates over the raw list, so a paper whose title
matches it is charged 3 + 3 = 6 instead of the 3 a deduplicated list would
give; only `matched_keywords` is deduplicated. -/
theorem antitrust_counted_twice :
    PRIORITY_KEYWORDS.count ("antitrust".toList) = 2
  ∧ (calculate_relevance antitrustPaper).relevance_score = 6
  ∧ (calculate_relevance antitrustPaper).matched_keywords
      = ["antitrust".toList] := by
  refine ⟨by decide, by decide, by decide⟩

/-- C10: `calculate_relevance` modifies only `relevance_score` and
`matched_keywords`; the `title`, `authors`, `source`, `url`, `abstract`,
`date` and `key_finding` fields of its argument are returned unchanged. -/
theorem calculate_relevance_frame (paper : Paper) :
    (calculate_relevance paper).title = paper.title
  ∧ (calculate_relevance paper).authors = paper.authors
  ∧ (calculate_relevance paper).source = paper.source
  ∧ (calculate_relevance paper).url = paper.url
  ∧ (calculate_relevance paper).abstract = paper.abstract
  ∧ (calculate_relevance paper).date = paper.date
  ∧ (calculate_relevance paper).key_finding = paper.key_finding :=
  calc_with_frame PRIORITY_KEYWORDS paper

/-- Stable descending insertion by an integer key: the new element goes after
every already-placed element of greater-or-equal key, as Python's stable
`sorted(..., key=..., reverse=True)` keeps earlier-input ties first. -/
def insertKeyDesc (key : α → Int) (x : α) : List α → List α
  | [] => [x]
  | y :: ys =>
      if key x ≤ key y then y :: insertKeyDesc key x ys else x :: y :: ys

/-- Model of Python's `sorted(l, key=key, reverse=True)`: a stable sort into
non-increasing key order (stable sorts by a key are unique, so any faithful
stable sort models CPython's Timsort; this one inserts left to right). -/
def sortKeyDesc (key : α → Int) (l : List α) : List α :=
  l.foldl (fun acc x => insertKeyDesc key x acc) []

/-- Helper: inserting permutes to consing. -/
theorem insertKeyDesc_perm (key : α → Int) (x : α) (l : List α) :
    (insertKeyDesc key x l).Perm (x :: l) := by
  induction l with
  | nil => exact List.Perm.refl _
  | cons y ys ih =>
    by_cases hxy : key x ≤ key y
    · simp only [insertKeyDesc, hxy, if_true]
      exact (ih.cons y).trans (List.Perm.swap x y ys)
    · simp [insertKeyDesc, hxy]

/-- Helper: inserting preserves non-increasing key order. -/
theorem insertKeyDesc_pairwise (key : α → Int) (x : α) (l : List α)
    (h : l.Pairwise (fun a b => key b ≤ key a)) :
    (insertKeyDesc key x l).Pairwise (fun a b => key b ≤ key a) := by
  induction l with
  | nil => simp [insertKeyDesc]
  | cons y ys ih =>
    rcases List.pairwise_cons.mp h with ⟨hy, hys⟩
    by_cases hxy : key x ≤ key y
    · simp only [insertKeyDesc, hxy, if_true]
      refine List.pairwise_cons.mpr ⟨?_, ih hys⟩
      intro z hz
      rcases List.mem_cons.mp ((insertKeyDesc_perm key x ys).mem_iff.mp hz)
        with rfl | hz
      · exact hxy
      · exact hy z hz
    · have hxy' := lt_of_not_le hxy
      simp only [insertKeyDesc, hxy, if_false]
      refine List.pairwise_cons.mpr ⟨?_, h⟩
      intro z hz
      rcases List.mem_cons.mp hz with rfl | hz
      · exact hxy'.le
      · exact (hy z hz).trans hxy'.le

/-- Helper: among equal-key elements the inserted element lands last, so the
key-class of the result is the key-class of the input with `x` appended when
its key matches (this is stability of one insertion, given sortedness). -/
theorem insertKeyDesc_filter (key : α → Int) (x : α) (l : List α) (s : Int)
    (h : l.Pairwise (fun a b => key b ≤ key a)) :
    (insertKeyDesc key x l).filter (fun a => key a == s)
      = l.filter (fun a => key a == s)
        ++ (if key x == s then [x] else []) := by
  induction l with
  | nil => by_cases hx : key x == s <;> simp [insertKeyDesc, hx]
  | cons y ys ih =>
    rcases List.pairwise_cons.mp h with ⟨hy, hys⟩
    by_cases hxy : key x ≤ key y
    · by_cases hyv : key y == s <;>
        simp [insertKeyDesc, hxy, List.filter_cons, hyv, ih hys]
    · push_neg at hxy
      by_cases hxv : key x == s
      · have hxs : key x = s := by simpa using hxv
        have hnil : (y :: ys).filter (fun a => key a == s) = [] := by
          rw [List.filter_eq_nil_iff]
          intro a ha
          rcases List.mem_cons.mp ha with rfl | ha
          · simp only [beq_iff_eq]; omega
          · have := lt_of_le_of_lt (hy a ha) hxy
            simp only [beq_iff_eq]; omega
        simp [insertKeyDesc, not_le.mpr hxy, List.filter_cons, hxv, hnil]
      · simp [insertKeyDesc, not_le.mpr hxy, List.filter_cons, hxv]

/-- Helper: the sorting fold, starting from any accumulator. -/
theorem sortKeyDesc_fold (key : α → Int) (l acc : List α)
    (h : acc.Pairwise (fun a b => key b ≤ key a)) :
    (l.foldl (fun acc x => insertKeyDesc key x acc) acc).Perm (acc ++ l)
  ∧ (l.foldl (fun acc x => insertKeyDesc key x acc) acc).Pairwise
      (fun a b => key b ≤ key a)
  ∧ ∀ s : Int, (l.foldl (fun acc x => insertKeyDesc key x acc) acc).filter
        (fun a => key a == s)
      = acc.filter (fun a => key a == s)
        ++ l.filter (fun a => key a == s) := by
  induction l generalizing acc with
  | nil => exact ⟨by simp, h, fun s => by simp⟩
  | cons x xs ih =>
    have hins := insertKeyDesc_pairwise key x acc h
    rcases ih (insertKeyDesc key x acc) hins with ⟨hperm, hpw, hfil⟩
    simp only [List.foldl_cons]
    refine ⟨?_, hpw, ?_⟩
    · refine hperm.trans
        (((insertKeyDesc_perm key x acc).append_right xs).trans ?_)
      exact List.perm_middle.symm
    · intro s
      rw [hfil s, insertKeyDesc_filter key x acc s h, List.filter_cons]
      by_cases hxv : key x == s <;> simp [hxv]

/-- The source's `filter_and_rank`: keep the papers whose score meets the
threshold, then stable-sort them by score, descending. -/
def filter_and_rank (papers : List Paper) (min_score : Int := 1) :
    List Paper :=
  sortKeyDesc (fun p => p.relevance_score)
    (papers.filter (fun p => decide (min_score ≤ p.relevance_score)))

/-- C2: `filter_and_rank` returns exactly the records with
`relevance_score >= min_score` (a permutation of the filtered input), in
non-increasing score order, and within each score class the original input
order is preserved (stability). -/
theorem filter_and_rank_spec (papers : List Paper) (m : Int) :
    (∀ p ∈ filter_and_rank papers m, m ≤ p.relevance_score)
  ∧ (filter_and_rank papers m).Pairwise
      (fun a b => b.relevance_score ≤ a.relevance_score)
  ∧ (filter_and_rank papers m).Perm
      (papers.filter (fun p => decide (m ≤ p.relevance_score)))
  ∧ ∀ s : Int, (filter_and_rank papers m).filter
        (fun p => p.relevance_score == s)
      = (papers.filter (fun p => decide (m ≤ p.relevance_score))).filter
          (fun p => p.relevance_score == s) := by
  rcases sortKeyDesc_fold (fun p => p.relevance_score)
      (papers.filter (fun p => decide (m ≤ p.relevance_score))) []
      (List.Pairwise.nil) with ⟨hperm, hpw, hfil⟩
  refine ⟨?_, hpw, by simpa using hperm, fun s => by simpa using hfil s⟩
  intro p hp
  have hmem := hperm.mem_iff.mp hp
  simp only [List.nil_append, List.mem_filter, decide_eq_true_eq] at hmem
  exact hmem.2

/-- Model of Python `s.rsplit(' ', 1)[0]`, part 1: everything strictly before
the last space of `s`, or `none` when `s` contains no space. -/
def beforeLastSpace : PyStr → Option PyStr
  | [] => none
  | c :: cs =>
      match beforeLastSpace cs with
      | some t => some (c :: t)
      | none => if c = ' ' then some [] else none

/-- Model of Python `s.rsplit(' ', 1)[0]`: the part of `s` before its last
space, or `s` itself when `s` has no space (Python then returns `[s]`). -/
def rsplitLast (s : PyStr) : PyStr :=
  match beforeLastSpace s with
  | some t => t
  | none => s

/-- The abstract excerpt computed inside `format_paper`: the first 300
characters, and - when the abstract is longer than 300 characters - the
result of `rsplit(' ', 1)[0]` on that prefix followed by an ellipsis. -/
def abstractExcerpt (abstract : PyStr) : PyStr :=
  let a := abstract.take 300
  if 300 < abstract.length then rsplitLast a ++ "...".toList else a

/-- The excerpt body before the ellipsis, for a long abstract. -/
def excerptCore (abstract : PyStr) : PyStr := rsplitLast (abstract.take 300)

/-- Modelled from the spec: the excerpt is cut at a word boundary when it is
the whole abstract or the character of the abstract right after the cut is a
space (otherwise the cut falls in the middle of a word). -/
def cutAtWordBoundary (abstract : PyStr) : Prop :=
  excerptCore abstract = abstract
    ∨ (abstract.drop (excerptCore abstract).length).head? = some ' '

instance (a : PyStr) : Decidable (cutAtWordBoundary a) := by
  unfold cutAtWordBoundary
  infer_instance

/-- Helper: when `beforeLastSpace` returns a prefix, the string is that
prefix, a space, and a tail. -/
theorem beforeLastSpace_some (s : PyStr) (t : PyStr)
    (h : beforeLastSpace s = some t) : ∃ u, s = t ++ ' ' :: u := by
  induction s generalizing t with
  | nil => simp [beforeLastSpace] at h
  | cons c cs ih =>
    simp only [beforeLastSpace] at h
    cases hb : beforeLastSpace cs with
    | some t' =>
      rw [hb] at h
      obtain rfl : c :: t' = t := by simpa using h
      rcases ih t' hb with ⟨u, hu⟩
      exact ⟨u, by simp [hu]⟩
    | none =>
      rw [hb] at h
      by_cases hc : c = ' '
      · subst hc
        simp only [if_true] at h
        obtain rfl : ([] : PyStr) = t := by simpa using h
        exact ⟨cs, rfl⟩
      · simp [hc] at h

/-- Helper: a string containing a space has a last space. -/
theorem beforeLastSpace_of_mem (s : PyStr) (h : (' ') ∈ s) :
    ∃ t, beforeLastSpace s = some t := by
  induction s with
  | nil => simp at h
  | cons c cs ih =>
    simp only [beforeLastSpace]
    cases hb : beforeLastSpace cs with
    | some t' => exact ⟨c :: t', rfl⟩
    | none =>
      rcases List.mem_cons.mp h with rfl | h
      · exact ⟨[], by simp⟩
      · rcases ih h with ⟨t, ht⟩
        rw [ht] at hb
        cases hb

/-- C6 amended: for an abstract longer than 300 characters the rendered
excerpt is the excerpt body (at most 300 characters) plus the ellipsis, and
whenever the first 300 characters contain a space the cut falls on a word
boundary; when they contain no space the full 300-character prefix is kept,
which can cut mid-word. -/
theorem abstract_truncation_amended (abstract : PyStr)
    (h : 300 < abstract.length) :
    abstractExcerpt abstract = excerptCore abstract ++ "...".toList
  ∧ (excerptCore abstract).length ≤ 300
  ∧ ((' ') ∈ abstract.take 300 → cutAtWordBoundary abstract) := by
  refine ⟨by simp [abstractExcerpt, excerptCore, h], ?_, ?_⟩
  · unfold excerptCore rsplitLast
    cases hb : beforeLastSpace (abstract.take 300) with
    | none =>
      exact List.length_take_le 300 abstract
    | some t =>
      rcases beforeLastSpace_some _ t hb with ⟨u, hu⟩
      have h1 : (abstract.take 300).length ≤ 300 := List.length_take_le _ _
      rw [hu] at h1
      simp only [List.length_append, List.length_cons] at h1
      show t.length ≤ 300
      omega
  · intro hsp
    rcases beforeLastSpace_of_mem _ hsp with ⟨t, ht⟩
    rcases beforeLastSpace_some _ t ht with ⟨u, hu⟩
    right
    have hcore : excerptCore abstract = t := by
      simp [excerptCore, rsplitLast, ht]
    rw [hcore]
    have habs : abstract = t ++ ' ' :: (u ++ abstract.drop 300) := by
      conv_lhs => rw [← List.take_append_drop 300 abstract]
      rw [hu]
      simp
    rw [habs, List.drop_left]
    rfl

/-- Abstract used to refute the universal word-boundary claim: 310 copies of
the letter a, with no space anywhere. -/
def longRun : PyStr := List.replicate 310 ('a')

/-- Paper holding `longRun` as its abstract, with no key finding. -/
def longRunPaper : Paper :=
  { title := [], authors := [], source := [], url := [],
    abstract := longRun, date := none }

set_option maxRecDepth 4000 in
/-- C6 counterexample: a paper with empty key finding and a 310-character
space-free abstract renders the raw 300-character prefix plus the ellipsis,
and the cut is mid-word, not at a word boundary. -/
theorem abstract_truncation_midword :
    longRunPaper.key_finding = []
  ∧ 300 < longRunPaper.abstract.length
  ∧ abstractExcerpt longRunPaper.abstract
      = List.replicate 300 ('a') ++ "...".toList
  ∧ ¬ cutAtWordBoundary longRunPaper.abstract := by
  refine ⟨rfl, by decide, by decide, by decide⟩

/-- Abstract with a space among its first 300 characters, used as the witness
input for the amended truncation theorem. -/
def spacedRun : PyStr :=
  List.replicate 200 ('a') ++ ' ' :: List.replicate 150 ('b')

set_option maxRecDepth 4000 in
/-- Witness for C6's amended theorem at a concrete 351-character abstract
whose 300-character prefix contains a space. -/
theorem abstract_truncation_amended_witness :
    300 < spacedRun.length
  ∧ (abstractExcerpt spacedRun = excerptCore spacedRun ++ "...".toList
    ∧ (excerptCore spacedRun).length ≤ 300
    ∧ ((' ') ∈ spacedRun.take 300 → cutAtWordBoundary spacedRun)) :=
  ⟨by decide, abstract_truncation_amended _ (by decide)⟩

/-- The source's `format_paper`: one markdown block per paper.  The stored
`date` is the pre-rendered `"%b %d"` string; `key_finding` and the keyword
line are included exactly when Python's truthiness tests pass. -/
def format_paper (paper : Paper) : PyStr :=
  let date_str := match paper.date with
    | some d => d
    | none => "Recent".toList
  let keywords := pyJoin (", ".toList) (paper.matched_keywords.take 5)
  let base := "**[".toList ++ paper.title ++ "](".toList ++ paper.url
    ++ ")**\n*".toList ++ paper.source ++ "* | ".toList
    ++ paper.authors.take 60
    ++ (if 60 < paper.authors.length then "...".toList else [])
    ++ " | ".toList ++ date_str ++ "\n".toList
  let out1 := if paper.key_finding.isEmpty then base
    else base ++ "**ğŸ“Œ Key finding:** ".toList
      ++ paper.key_finding ++ "\n".toList
  let out2 :=
    if ¬ paper.abstract.isEmpty ∧ paper.key_finding.isEmpty then
      out1 ++ "> ".toList ++ abstractExcerpt paper.abstract ++ "\n".toList
    else out1
  let out3 := if keywords.isEmpty then out2
    else out2 ++ "**Keywords:** ".toList ++ keywords ++ "\n".toList
  out3 ++ "\n".toList

/-- The `high_relevance` tier of `generate_markdown`: score at least 5. -/
def high_relevance (papers : List Paper) : List Paper :=
  papers.filter (fun p => decide (5 ≤ p.relevance_score))

/-- The `medium_relevance` tier of `generate_markdown`: score in [2, 5). -/
def medium_relevance (papers : List Paper) : List Paper :=
  papers.filter (fun p =>
    decide (2 ≤ p.relevance_score ∧ p.relevance_score < 5))

/-- The `other_relevant` tier of `generate_markdown`: score in [1, 2). -/
def other_relevant (papers : List Paper) : List Paper :=
  papers.filter (fun p =>
    decide (1 ≤ p.relevance_score ∧ p.relevance_score < 2))

/-- The rendered blocks of one tier: the first ten papers of the tier, each
formatted by `format_paper` (the `tier[:10]` loop). -/
def tierBlocks (tier : List Paper) : List PyStr :=
  (tier.take 10).map format_paper

/-- One tier section of the report: header plus the capped blocks, emitted
only when the tier is non-empty. -/
def tierSection (header : PyStr) (tier : List Paper) : PyStr :=
  if tier.isEmpty then [] else header ++ (tierBlocks tier).flatten

/-- The "Total papers scanned" statistic, exactly as the source computes it:
`len(papers) + len([p for p in papers if p.relevance_score == 0])`. -/
def total_scanned (papers : List Paper) : Nat :=
  papers.length + (papers.filter (fun p => p.relevance_score == 0)).length

/-- The "High priority" count statistic: the full size of the high tier. -/
def high_priority_stat (papers : List Paper) : Nat :=
  (high_relevance papers).length

/-- The names of the configured `SOURCES` map (its URLs and kinds belong to
the excluded fetch layer; only `len(SOURCES)` reaches the renderer). -/
def SOURCES : List PyStr :=
  ["VoxEU/CEPR".toList, "Equitable Growth".toList, "EPI".toList,
   "Fed Board Working Papers".toList, "NY Fed Research".toList,
   "SF Fed Economic Letters".toList, "Brookings Economics".toList,
   "SSRN Economics".toList]

/-- The summary-statistics block of the report. -/
def summaryStats (papers : List Paper) : PyStr :=
  "\n---\n\n## Summary\n\n- **Total papers scanned:** ".toList
  ++ natStr (total_scanned papers)
  ++ "\n- **Relevant papers found:** ".toList ++ natStr papers.length
  ++ "\n- **High priority:** ".toList ++ natStr (high_priority_stat papers)
  ++ "\n- **Sources checked:** ".toList ++ natStr SOURCES.length
  ++ "\n\n### Keywords Matched This Week\n".toList

/-- One step of the keyword-frequency dictionary: increment an existing entry
in place or append a fresh one (Python dicts iterate in insertion order). -/
def bumpCount (acc : List (PyStr × Nat)) (kw : PyStr) : List (PyStr × Nat) :=
  if acc.any (fun e => e.1 == kw) then
    acc.map (fun e => if e.1 == kw then (e.1, e.2 + 1) else e)
  else acc ++ [(kw, 1)]

/-- The `keyword_counts` dictionary of `generate_markdown`, as an insertion
ordered association list. -/
def keyword_counts (papers : List Paper) : List (PyStr × Nat) :=
  (papers.flatMap (fun p => p.matched_keywords)).foldl bumpCount []

/-- The `top_keywords` list: counts sorted descending (stable) and capped at
fifteen entries. -/
def top_keywords (papers : List Paper) : List (PyStr × Nat) :=
  (sortKeyDesc (fun e => (e.2 : Int)) (keyword_counts papers)).take 15

/-- The rendered keyword-frequency lines. -/
def keywordLines (papers : List Paper) : PyStr :=
  ((top_keywords papers).map (fun e =>
    "- ".toList ++ e.1 ++ ": ".toList ++ natStr e.2
      ++ " papers\n".toList)).flatten

/-- The fixed leading part of every report. -/
def digestHeader (days : Nat) (date_str : PyStr) : PyStr :=
  "# Economics Research Digest\n**Week of ".toList ++ date_str
  ++ "** | Papers from last ".toList ++ natStr days
  ++ " days\n\n---\n\n## Top Papers by Relevance\n\n".toList

/-- The placeholder line emitted when the filtered list is empty. -/
def emptyNote : PyStr :=
  ("*No highly relevant papers found this period. "
    ++ "Consider expanding keywords or timeframe.*\n").toList

/-- The source's `generate_markdown`.  `datetime.now().strftime("%B %d, %Y")`
is impure, so the rendered date is an explicit parameter. -/
def generate_markdown (papers : List Paper) (days : Nat)
    (date_str : PyStr) : PyStr :=
  let header := digestHeader days date_str
  if papers.isEmpty then header ++ emptyNote
  else
    header
    ++ tierSection ("### ğŸ”´ High Priority\n\n".toList)
        (high_relevance papers)
    ++ tierSection ("\n### ğŸŸ¡ Worth Reading\n\n".toList)
        (medium_relevance papers)
    ++ tierSection ("\n### ğŸŸ¢ Also Relevant\n\n".toList)
        (other_relevant papers)
    ++ summaryStats papers
    ++ keywordLines papers

/-- Helper: under the default threshold the three tier sizes add up to the
whole input. -/
theorem tier_lengths (papers : List Paper)
    (h : ∀ p ∈ papers, 1 ≤ p.relevance_score) :
    (high_relevance papers).length + (medium_relevance papers).length
      + (other_relevant papers).length = papers.length := by
  induction papers with
  | nil => simp [high_relevance, medium_relevance, other_relevant]
  | cons p t ih =>
    have h1 : 1 ≤ p.relevance_score := h p (by simp)
    have ih2 := ih (fun q hq => h q (List.mem_cons_of_mem _ hq))
    simp only [high_relevance, medium_relevance, other_relevant,
      List.filter_cons, decide_eq_true_eq] at ih2 ⊢
    by_cases h5 : 5 ≤ p.relevance_score
    · rw [if_pos h5, if_neg (by omega), if_neg (by omega)]
      simp only [List.length_cons]
      omega
    · by_cases h2 : 2 ≤ p.relevance_score
      · rw [if_neg h5, if_pos ⟨h2, by omega⟩, if_neg (by omega)]
        simp only [List.length_cons]
        omega
      · rw [if_neg h5, if_neg (by omega), if_pos ⟨h1, by omega⟩]
        simp only [List.length_cons]
        omega

/-- C5: when every paper of the input has score at least 1 (the default
threshold), the three tiers of `generate_markdown` partition the input
exactly - each paper lies in exactly one tier, and the tier sizes add up to
the input size. -/
theorem generate_markdown_tiers_partition (papers : List Paper)
    (h : ∀ p ∈ papers, 1 ≤ p.relevance_score) :
    (∀ p ∈ papers,
        (p ∈ high_relevance papers ∧ p ∉ medium_relevance papers
            ∧ p ∉ other_relevant papers)
      ∨ (p ∉ high_relevance papers ∧ p ∈ medium_relevance papers
            ∧ p ∉ other_relevant papers)
      ∨ (p ∉ high_relevance papers ∧ p ∉ medium_relevance papers
            ∧ p ∈ other_relevant papers))
  ∧ (high_relevance papers).length + (medium_relevance papers).length
      + (other_relevant papers).length = papers.length := by
  refine ⟨?_, tier_lengths papers h⟩
  intro p hp
  have h1 := h p hp
  simp only [high_relevance, medium_relevance, other_relevant,
    List.mem_filter, decide_eq_true_eq, hp, true_and]
  omega

/-- Sample papers with scores 7, 3 and 1, one per tier. -/
def samplePapers : List Paper :=
  [{ title := [], authors := [], source := [], url := [], abstract := [],
     date := none, relevance_score := 7 },
   { title := [], authors := [], source := [], url := [], abstract := [],
     date := none, relevance_score := 3 },
   { title := [], authors := [], source := [], url := [], abstract := [],
     date := none, relevance_score := 1 }]

/-- Witness for C5 on the three sample papers. -/
theorem generate_markdown_tiers_partition_witness :
    (∀ p ∈ samplePapers, 1 ≤ p.relevance_score)
  ∧ ((∀ p ∈ samplePapers,
        (p ∈ high_relevance samplePapers ∧ p ∉ medium_relevance samplePapers
            ∧ p ∉ other_relevant samplePapers)
      ∨ (p ∉ high_relevance samplePapers ∧ p ∈ medium_relevance samplePapers
            ∧ p ∉ other_relevant samplePapers)
      ∨ (p ∉ high_relevance samplePapers ∧ p ∉ medium_relevance samplePapers
            ∧ p ∈ other_relevant samplePapers))
    ∧ (high_relevance samplePapers).length
        + (medium_relevance samplePapers).length
        + (other_relevant samplePapers).length = samplePapers.length) :=
  ⟨by decide, generate_markdown_tiers_partition _ (by decide)⟩

/-- C7: on input where every score is at least 1 - which is what
`generate_markdown` receives under the default threshold - the zero-score
term of the "Total papers scanned" statistic vanishes, so the statistic
equals the filtered count `len(papers)` rather than a pre-filter total. -/
theorem total_scanned_equals_relevant (papers : List Paper)
    (h : ∀ p ∈ papers, 1 ≤ p.relevance_score) :
    total_scanned papers = papers.length := by
  have hnil : papers.filter (fun p => p.relevance_score == 0) = [] := by
    rw [List.filter_eq_nil_iff]
    intro p hp
    have := h p hp
    simp only [beq_iff_eq]
    omega
  simp [total_scanned, hnil]

/-- Witness for C7 on the sample papers: the statistic is 3, the same as the
relevant-papers count. -/
theorem total_scanned_equals_relevant_witness :
    (∀ p ∈ samplePapers, 1 ≤ p.relevance_score)
  ∧ total_scanned samplePapers = samplePapers.length
  ∧ total_scanned samplePapers = 3 :=
  ⟨by decide, total_scanned_equals_relevant _ (by decide), by decide⟩

/-- C8: every tier renders at most its first ten papers (exactly
`min 10 size` blocks, in tier order), while the high-priority count statistic
reports the full tier size; a high tier of fifteen papers renders ten blocks
and reports fifteen. -/
theorem tier_render_cap (papers : List Paper)
    (h : high_priority_stat papers = 15) :
    (tierBlocks (high_relevance papers)).length = 10
  ∧ ∀ tier : List Paper, (tierBlocks tier).length = min 10 tier.length := by
  have hgen : ∀ tier : List Paper,
      (tierBlocks tier).length = min 10 tier.length := by
    intro tier
    simp [tierBlocks, List.length_take]
  refine ⟨?_, hgen⟩
  unfold high_priority_stat at h
  rw [hgen, h]
  decide

/-- Paper with score 5, member of the high tier. -/
def highPaper : Paper :=
  { title := [], authors := [], source := [], url := [], abstract := [],
    date := none, relevance_score := 5 }

/-- Fifteen copies of the high-tier paper. -/
def fifteenPapers : List Paper := List.replicate 15 highPaper

/-- Witness for C8: with fifteen high-tier papers, ten blocks are rendered
while the count statistic reads fifteen. -/
theorem tier_render_cap_witness :
    high_priority_stat fifteenPapers = 15
  ∧ ((tierBlocks (high_relevance fifteenPapers)).length = 10
    ∧ ∀ tier : List Paper, (tierBlocks tier).length = min 10 tier.length) :=
  ⟨by decide, tier_render_cap _ (by decide)⟩

/-- C9: on an empty filtered list the report is exactly the header followed
by the single placeholder line, and (checked on a concrete header) contains
no tier headers and no summary-statistics block. -/
theorem generate_markdown_empty_report :
    (∀ (days : Nat) (date_str : PyStr),
        generate_markdown [] days date_str
          = digestHeader days date_str ++ emptyNote)
  ∧ pyIn emptyNote (generate_markdown [] 7 ("October 10, 2025").toList)
      = true
  ∧ pyIn ("High Priority".toList)
      (generate_markdown [] 7 ("October 10, 2025").toList) = false
  ∧ pyIn ("Worth Reading".toList)
      (generate_markdown [] 7 ("October 10, 2025").toList) = false
  ∧ pyIn ("Also Relevant".toList)
      (generate_markdown [] 7 ("October 10, 2025").toList) = false
  ∧ pyIn ("## Summary".toList)
      (generate_markdown [] 7 ("October 10, 2025").toList) = false := by
  refine ⟨fun days date_str => rfl, by decide, by decide, by decide,
    by decide, by decide⟩

end EconDigest
